import Mathlib

/-!
Verification of the profiling campaign tool of this repository
(`src/utils/management/commands/profile.py`): the trace-filename parser
(`ProfileAnalyzer._parse_filename`), the app classifier
(`ProfileAnalyzer._extract_app_from_endpoint`), the scanner/aggregator
(`ProfileAnalyzer.__init__` / `_analyze_profiles`), the filtered/sorted view
(`ProfileAnalyzer.get_filtered_profiles`), the request dispatcher
(`ProfileRunner.make_request` / `run_endpoint_tests`), the authenticator
(`ProfileRunner.authenticate`), and the retention sweeper
(`Command.handle_clean`).

Embedding conventions:
* Python strings are `List Char`; the character classes `\d`, `\s` and
  `str.strip()` are modelled on their ASCII fragments (all filenames the tool
  itself produces are ASCII).
* Durations and wall-clock values are `ℚ`; timestamps are `ℤ`; sizes are `ℕ`.
* Fallible Python primitives (`float(...)`, `int(...)`,
  `datetime.fromtimestamp`) are `Except Unit`-valued; a bare `except:` of the
  source corresponds to an explicit `match` on such a value, and code whose
  exceptions would propagate is written monadically, so "never raises" is the
  statement that the embedded function always returns `Except.ok`.
* Presentation-only fields of the analyzer's record dict (`formatted_time`,
  `size_mb`, the `file` handle) are omitted: no claim depends on them.
-/

attribute [local semireducible] Rat.add Rat.mul Rat.inv Rat.sub

namespace Profile

/-- ASCII fragment of Python's `\s` / `str.strip()` whitespace:
space, tab, newline, carriage return, vertical tab, form feed. -/
def isSpaceC (c : Char) : Bool :=
  c = ' ' || c = '\t' || c = '\n' || c = '\r' || c = '\x0b' || c = '\x0c'

/-- Match the regex fragment `\d+\.?\d*` greedily at the head of `l`
(the duration group of patterns 1-5, and a token of `re.findall`):
a nonempty digit run, an optional dot, a further digit run.
Returns the matched characters and the remainder. -/
def matchNum (l : List Char) : Option (List Char × List Char) :=
  match l with
  | [] => none
  | c :: ls =>
    if c.isDigit then
      let ds := List.takeWhile Char.isDigit (c :: ls)
      let r1 := List.dropWhile Char.isDigit (c :: ls)
      match r1 with
      | '.' :: r2 =>
        some (ds ++ '.' :: List.takeWhile Char.isDigit r2,
              List.dropWhile Char.isDigit r2)
      | _ => some (ds, r1)
    else none

/-- Match a literal string at the head (a regex literal such as `\?profile=1`
or `\.html`); `re.match` only anchors at the start, so trailing input after
the final literal of a pattern is allowed. -/
def lit (pat l : List Char) : Option (List Char) :=
  if pat.isPrefixOf l then some (l.drop pat.length) else none

/-- Match `\s+` (greedy, at least one; every use in the patterns is followed
by a non-space literal or a digit, so greediness is deterministic). -/
def spaces1 (l : List Char) : Option (List Char) :=
  if (List.takeWhile isSpaceC l).isEmpty then none
  else some (List.dropWhile isSpaceC l)

/-- Match `(\d+)` greedily (the timestamp group). -/
def digits1 (l : List Char) : Option (List Char × List Char) :=
  let ds := List.takeWhile Char.isDigit l
  if ds.isEmpty then none else some (ds, List.dropWhile Char.isDigit l)

/-- Match `([^stop]+)\s+` followed by a literal starting with `stop`
(the endpoint group of patterns 1-4).  The group cannot cross the first
`stop` character, and the backtracking of the greedy `[^stop]+` against the
subsequent `\s+` gives back exactly one character, which must be whitespace;
so the group is everything up to the first `stop` minus one trailing
whitespace character.  The returned remainder still starts at `stop`. -/
def gUntil (stop : Char) (l : List Char) : Option (List Char × List Char) :=
  let taken := List.takeWhile (fun c => c ≠ stop) l
  let rest := List.dropWhile (fun c => c ≠ stop) l
  match rest with
  | [] => none
  | _ :: _ =>
    match taken.getLast? with
    | none => none
    | some c =>
      if isSpaceC c ∧ 2 ≤ taken.length then some (taken.dropLast, rest)
      else none

/-- Match `([^\s]+)` greedily (the endpoint group of pattern 5). -/
def nonspace1 (l : List Char) : Option (List Char × List Char) :=
  let tk := List.takeWhile (fun c => !(isSpaceC c)) l
  if tk.isEmpty then none
  else some (tk, List.dropWhile (fun c => !(isSpaceC c)) l)

def htmlExtC : List Char := (".html" : String).data

def profileMarkC : List Char := ("?profile=1" : String).data

/-- Groups of one of the filename patterns 1-5: duration string, endpoint
string, timestamp string, exactly as `match.groups()` yields them. -/
structure PatGroups where
  duration : List Char
  endpoint : List Char
  timestamp : List Char
deriving DecidableEq

/-- Pattern 1 after the shared `^(\d+\.?\d*)s` prefix:
`\s+_\s+([^?]+)\s+\?profile=1\s+_\s+(\d+)\.html`. -/
def rest1 (r : List Char) : Option (List Char × List Char) :=
  match spaces1 r with
  | none => none
  | some r =>
  match lit ['_'] r with
  | none => none
  | some r =>
  match spaces1 r with
  | none => none
  | some r =>
  match gUntil '?' r with
  | none => none
  | some (ep, r) =>
  match lit profileMarkC r with
  | none => none
  | some r =>
  match spaces1 r with
  | none => none
  | some r =>
  match lit ['_'] r with
  | none => none
  | some r =>
  match spaces1 r with
  | none => none
  | some r =>
  match digits1 r with
  | none => none
  | some (ts, r) =>
  match lit htmlExtC r with
  | none => none
  | some _ => some (ep, ts)

/-- Pattern 2 after the shared prefix:
`\s+_\s+([^?]+)\s+\?profile=1\s+(\d+)\.html`. -/
def rest2 (r : List Char) : Option (List Char × List Char) :=
  match spaces1 r with
  | none => none
  | some r =>
  match lit ['_'] r with
  | none => none
  | some r =>
  match spaces1 r with
  | none => none
  | some r =>
  match gUntil '?' r with
  | none => none
  | some (ep, r) =>
  match lit profileMarkC r with
  | none => none
  | some r =>
  match spaces1 r with
  | none => none
  | some r =>
  match digits1 r with
  | none => none
  | some (ts, r) =>
  match lit htmlExtC r with
  | none => none
  | some _ => some (ep, ts)

/-- Pattern 3 after the shared prefix:
`\s+([^?]+)\s+\?profile=1\s+(\d+)\.html`. -/
def rest3 (r : List Char) : Option (List Char × List Char) :=
  match spaces1 r with
  | none => none
  | some r =>
  match gUntil '?' r with
  | none => none
  | some (ep, r) =>
  match lit profileMarkC r with
  | none => none
  | some r =>
  match spaces1 r with
  | none => none
  | some r =>
  match digits1 r with
  | none => none
  | some (ts, r) =>
  match lit htmlExtC r with
  | none => none
  | some _ => some (ep, ts)

/-- Pattern 4 after the shared prefix:
`\s+_\s+([^_]+)\s+_\s+(\d+)\.html`. -/
def rest4 (r : List Char) : Option (List Char × List Char) :=
  match spaces1 r with
  | none => none
  | some r =>
  match lit ['_'] r with
  | none => none
  | some r =>
  match spaces1 r with
  | none => none
  | some r =>
  match gUntil '_' r with
  | none => none
  | some (ep, r) =>
  match lit ['_'] r with
  | none => none
  | some r =>
  match spaces1 r with
  | none => none
  | some r =>
  match digits1 r with
  | none => none
  | some (ts, r) =>
  match lit htmlExtC r with
  | none => none
  | some _ => some (ep, ts)

/-- Pattern 5 after the shared prefix:
`\s+([^\s]+)\s+(\d+)\.html`. -/
def rest5 (r : List Char) : Option (List Char × List Char) :=
  match spaces1 r with
  | none => none
  | some r =>
  match nonspace1 r with
  | none => none
  | some (ep, r) =>
  match spaces1 r with
  | none => none
  | some r =>
  match digits1 r with
  | none => none
  | some (ts, r) =>
  match lit htmlExtC r with
  | none => none
  | some _ => some (ep, ts)

/-- Pattern 6: `^(\d+)\.html`. -/
def pat6 (l : List Char) : Option (List Char) :=
  match digits1 l with
  | none => none
  | some (ts, r) =>
  match lit htmlExtC r with
  | none => none
  | some _ => some ts

/-- Tails of patterns 1-5 tried in the source's order, after the shared
(and deterministic) `^(\d+\.?\d*)s` prefix has matched with groups
`dur` and remainder `r0`. -/
def pats15 (dur r0 : List Char) : Option PatGroups :=
  match rest1 r0 with
  | some (ep, ts) => some ⟨dur, ep, ts⟩
  | none =>
  match rest2 r0 with
  | some (ep, ts) => some ⟨dur, ep, ts⟩
  | none =>
  match rest3 r0 with
  | some (ep, ts) => some ⟨dur, ep, ts⟩
  | none =>
  match rest4 r0 with
  | some (ep, ts) => some ⟨dur, ep, ts⟩
  | none =>
  match rest5 r0 with
  | some (ep, ts) => some ⟨dur, ep, ts⟩
  | none => none

/-- Pattern 6, tried last, tagged `true`; the duration/endpoint groups are
unused for it. -/
def pat6Result (l : List Char) : Option (Bool × PatGroups) :=
  match pat6 l with
  | some ts => some (true, ⟨[], [], ts⟩)
  | none => none

/-- The ordered cascade of `_parse_filename`.  Patterns 1-5 share the
regex prefix `^(\d+\.?\d*)s`, whose greedy match is deterministic, so it is
factored out; their tails are tried in the source's order, then pattern 6.
`some (false, g)` is a match of one of patterns 1-5 (groups `g`);
`some (true, g)` is a match of pattern 6, with the timestamp in
`g.timestamp`. -/
def tryPatterns (l : List Char) : Option (Bool × PatGroups) :=
  match matchNum l with
  | none => pat6Result l
  | some (dur, r0) =>
    match lit ['s'] r0 with
    | none => pat6Result l
    | some r1 =>
      match pats15 dur r1 with
      | some g => some (false, g)
      | none => pat6Result l

/-- `str.strip(chars)` / `str.strip()`: drop the given class from both ends. -/
def stripList (p : Char → Bool) (l : List Char) : List Char :=
  ((List.dropWhile p l).reverse.dropWhile p).reverse

def stripUnderscores (l : List Char) : List Char := stripList (fun c => c = '_') l

def stripSpacesC (l : List Char) : List Char := stripList isSpaceC l

/-- Value of a digit string (how Python's `int`/`float` read a digit run). -/
def natOfDigits (l : List Char) : ℕ :=
  l.foldl (fun n c => 10 * n + (c.toNat - 48)) 0

/-- Value of the decimal literal `ip . fp`. -/
def decValue (ip fp : List Char) : ℚ :=
  (natOfDigits ip : ℚ) + mkRat (natOfDigits fp) (10 ^ fp.length)

/-- Python's `float(str)`, restricted to the unsigned decimal shapes
(`\d+`, `\d+.\d*`, `.\d+`) that the parser can produce; every other input
is a `ValueError`.  (Signs, exponents, `inf`/`nan` never reach it here.) -/
def floatE (l : List Char) : Except Unit ℚ :=
  let ds := List.takeWhile Char.isDigit l
  let r := List.dropWhile Char.isDigit l
  match r with
  | [] => if ds.isEmpty then .error () else .ok (decValue ds [])
  | '.' :: r2 =>
    let fs := List.takeWhile Char.isDigit r2
    if (List.dropWhile Char.isDigit r2).isEmpty && !(ds.isEmpty && fs.isEmpty)
    then .ok (decValue ds fs) else .error ()
  | _ => .error ()

/-- Python's `int(str)`, restricted to unsigned digit runs (optionally
whitespace-padded); every other input — in particular a token containing a
dot — is a `ValueError`. -/
def intE (l : List Char) : Except Unit ℤ :=
  if (List.takeWhile Char.isDigit (stripSpacesC l)).isEmpty
      || !(List.dropWhile Char.isDigit (stripSpacesC l)).isEmpty then .error ()
  else .ok (natOfDigits (List.takeWhile Char.isDigit (stripSpacesC l)))

/-- Exclusive upper bound of `datetime.fromtimestamp` (start of year 10000;
the exact CPython bound is platform/timezone-dependent, which no claim
proved here depends on). -/
def tsMax : ℤ := 253402300800

def tsInRange (n : ℤ) : Bool := decide (0 ≤ n) && decide (n < tsMax)

/-- Timestamp resolution of `_parse_filename`: the `try` block runs
`datetime.fromtimestamp(int(timestamp))` on the captured token (or on the
file's modification time when no token was captured) and a bare `except:`
resets the timestamp to `0`; the `int(timestamp) if timestamp else 0` of the
final record literal is outside the `try`, hence the `Except` result. -/
def resolveTsE (tok : Option (List Char)) (mtime : ℕ) : Except Unit ℤ :=
  match tok with
  | some t =>
    match intE t with
    | .ok n =>
      if tsInRange n then
        -- the try block succeeded, leaving the token string in `timestamp`;
        -- the final record literal re-runs `int(timestamp)` (token truthy
        -- means nonempty), outside the try
        if t.isEmpty then .ok 0 else intE t
      else .ok 0     -- fromtimestamp raised; except: sets timestamp = 0
    | .error _ => .ok 0  -- int() raised; except: sets timestamp = 0
  | none =>
    -- no token: the try block uses the file's mtime (and `int(st_mtime)`);
    -- the final `if timestamp` then sees an integer
    if tsInRange (mtime : ℤ) then .ok (if (mtime : ℤ) = 0 then 0 else (mtime : ℤ))
    else .ok 0

/-- `re.findall(r'\d+\.?\d*', filename)`: the maximal-munch token scan of the
fallback branch. -/
def findNums (l : List Char) : List (List Char) :=
  match l with
  | [] => []
  | c :: rest =>
    if c.isDigit then
      match hdw : List.dropWhile Char.isDigit rest with
      | '.' :: r2 =>
        (List.takeWhile Char.isDigit (c :: rest) ++ '.' :: List.takeWhile Char.isDigit r2)
          :: findNums (List.dropWhile Char.isDigit r2)
      | r1 => List.takeWhile Char.isDigit (c :: rest) :: findNums r1
    else findNums rest
termination_by l.length
decreasing_by
  · have h1 : (List.dropWhile Char.isDigit r2).length ≤ r2.length :=
      (List.dropWhile_sublist _).length_le
    have h2 : (List.dropWhile Char.isDigit ls).length ≤ ls.length :=
      (List.dropWhile_sublist _).length_le
    rw [hdw] at h2
    simp only [List.length_cons] at h2 ⊢
    omega
  · have h2 : (List.dropWhile Char.isDigit ls).length ≤ ls.length :=
      (List.dropWhile_sublist _).length_le
    rw [hdw] at h2
    simp only [List.length_cons]
    omega
  · simp only [List.length_cons]
    omega

/-- `re.sub(r'\d+\.?\d*', '', filename)`: delete the same tokens that
`findNums` finds, keep everything else. -/
def removeNums (l : List Char) : List Char :=
  match l with
  | [] => []
  | c :: rest =>
    if c.isDigit then
      match hdw : List.dropWhile Char.isDigit rest with
      | '.' :: r2 => removeNums (List.dropWhile Char.isDigit r2)
      | r1 => removeNums r1
    else c :: removeNums rest
termination_by l.length
decreasing_by
  · have h1 : (List.dropWhile Char.isDigit r2).length ≤ r2.length :=
      (List.dropWhile_sublist _).length_le
    have h2 : (List.dropWhile Char.isDigit ls).length ≤ ls.length :=
      (List.dropWhile_sublist _).length_le
    rw [hdw] at h2
    simp only [List.length_cons] at h2 ⊢
    omega
  · have h2 : (List.dropWhile Char.isDigit ls).length ≤ ls.length :=
      (List.dropWhile_sublist _).length_le
    rw [hdw] at h2
    simp only [List.length_cons]
    omega
  · simp only [List.length_cons]
    omega

/-- Python's `str.replace(pat, '')` (left-to-right, non-overlapping);
`pat` is nonempty at both call sites (`'.html'` and a captured digit run). -/
def removeAll (pat : List Char) (l : List Char) : List Char :=
  match l with
  | [] => []
  | c :: rest =>
    if 0 < pat.length ∧ pat.isPrefixOf (c :: rest) then
      removeAll pat ((c :: rest).drop pat.length)
    else c :: removeAll pat rest
termination_by l.length
decreasing_by
  · simp only [List.length_drop, List.length_cons]
    omega
  · simp only [List.length_cons]
    omega

/-- `re.sub(r'\.html$', '', s)`: `$` also matches just before a final
newline. -/
def stripHtmlSuffix (l : List Char) : List Char :=
  if htmlExtC.isSuffixOf l then l.take (l.length - 5)
  else if (htmlExtC ++ ['\n']).isSuffixOf l then l.take (l.length - 6) ++ ['\n']
  else l

def isSepC (c : Char) : Bool := c = '_' || isSpaceC c

/-- `re.sub(r'[_\s]+', ' ', s)`: collapse each run of underscores and
whitespace into a single space. -/
def collapseSep (l : List Char) : List Char :=
  match l with
  | [] => []
  | c :: rest =>
    if isSepC c then ' ' :: collapseSep (List.dropWhile isSepC rest)
    else c :: collapseSep rest
termination_by l.length
decreasing_by
  · have h1 : (List.dropWhile isSepC ls).length ≤ ls.length :=
      (List.dropWhile_sublist _).length_le
    simp only [List.length_cons]
    omega
  · simp only [List.length_cons]
    omega

/-- Python's `needle in hay` on strings. -/
def isSubstr (needle : List Char) : List Char → Bool
  | [] => needle.isEmpty
  | c :: rest => needle.isPrefixOf (c :: rest) || isSubstr needle rest

/-- Python's `str.split('/')`. -/
def splitSlash : List Char → List (List Char)
  | [] => [[]]
  | c :: rest =>
    if c = '/' then [] :: splitSlash rest
    else
      match splitSlash rest with
      | p :: ps => (c :: p) :: ps
      | [] => [[c]]

/-- `ProfileAnalyzer._extract_app_from_endpoint`: the ordered substring
heuristic over the lower-cased endpoint.  The path-segment branches use the
original-case endpoint, exactly as the source does. -/
def extractApp (endpoint : List Char) : List Char :=
  let el := endpoint.map Char.toLower
  if isSubstr ("admin" : String).data el then ("admin" : String).data
  else if isSubstr ("api/v1/auth" : String).data el
       || isSubstr ("auth" : String).data el then ("auth" : String).data
  else if isSubstr ("schema" : String).data el then ("api_schema" : String).data
  else if isSubstr ("silk" : String).data el then ("profiling_tools" : String).data
  else if isSubstr ("rosetta" : String).data el then ("profiling_tools" : String).data
  else if isSubstr ("static" : String).data el then ("static_media" : String).data
  else if isSubstr ("media" : String).data el then ("static_media" : String).data
  else if isSubstr ("flower" : String).data el then ("celery_monitoring" : String).data
  else if isSubstr ("api/v1" : String).data el then
    let parts := splitSlash (stripList (fun c => c = '/') endpoint)
    if 2 < parts.length ∧ parts.getD 0 [] = ("api" : String).data
        ∧ parts.getD 1 [] = ("v1" : String).data then
      (if (parts.getD 2 []).isEmpty then ("api" : String).data else parts.getD 2 [])
    else ("api" : String).data
  else if el = ("/" : String).data ∨ el = [] then ("health_checks" : String).data
  else if isSubstr ("404" : String).data el || isSubstr ("500" : String).data el
       || isSubstr ("error" : String).data el then ("error_pages" : String).data
  else
    let parts := splitSlash (stripList (fun c => c = '/') endpoint)
    if 1 < parts.length then parts.getD 1 [] else ("other" : String).data

/-- The record `_parse_filename` returns (its dict keys `filename`,
`duration`, `endpoint`, `app`, `timestamp`, `size`; the presentation-only
keys `file`, `formatted_time`, `size_mb` are omitted). -/
structure TraceRecord where
  filename : List Char
  duration : Option ℚ
  endpoint : List Char
  app : List Char
  timestamp : ℤ
  size : ℕ
deriving DecidableEq

/-- The match phase of `_parse_filename`: the six-pattern cascade, then the
numeric-substring / strip-digits fallback.  Yields the optional duration, the
endpoint string (already `strip('_').strip()`-ed as in the source), and the
optional timestamp token.  The `float(...)` conversions of the source are
outside any `try`, hence the `Except`. -/
def matchPhase (filename : List Char) :
    Except Unit (Option ℚ × List Char × Option (List Char)) :=
  match tryPatterns filename with
  | some (true, g) =>
    let ep := stripSpacesC (stripUnderscores
      (removeAll g.timestamp (removeAll htmlExtC filename)))
    let ep := if ep.isEmpty then ("unknown" : String).data else ep
    .ok (none, ep, some g.timestamp)
  | some (false, g) =>
    match (if g.duration.isEmpty then Except.ok none else (floatE g.duration).map some) with
    | .error e => .error e
    | .ok d => .ok (d, stripSpacesC (stripUnderscores g.endpoint), some g.timestamp)
  | none =>
    let nums := findNums filename
    let durE : Except Unit (Option ℚ) :=
      match nums.head? with
      | some t => if '.' ∈ t then (floatE t).map some else .ok none
      | none => .ok none
    match durE with
    | .error e => .error e
    | .ok d =>
      let ts := if 1 < nums.length then nums.getLast? else none
      let ep := stripSpacesC (collapseSep (stripHtmlSuffix (removeNums filename)))
      let ep := if ep.isEmpty then ("unknown" : String).data else ep
      .ok (d, ep, ts)

/-- `ProfileAnalyzer._parse_filename(profile_file)`, with the file's name,
modification time and size as inputs (the two `profile_file.stat()` calls). -/
def parseFilenameE (filename : List Char) (mtime : ℕ) (size : ℕ) :
    Except Unit TraceRecord :=
  match matchPhase filename with
  | .error e => .error e
  | .ok (dur, ep, tok) =>
    match resolveTsE tok mtime with
    | .error e => .error e
    | .ok ts =>
      .ok { filename := filename, duration := dur, endpoint := ep,
            app := extractApp ep, timestamp := ts, size := size }

/-- A directory entry as the analyzer and the sweeper see it: name,
modification time (epoch seconds, truncated as `int(st_mtime)`), size. -/
structure FileInfo where
  name : List Char
  mtime : ℕ
  size : ℕ
deriving DecidableEq

/-- Whether `Path.glob('*.html')` lists a file of this name: the `*` of glob
matches any (possibly empty) run of characters except that it never matches
a leading dot (hidden files). -/
def isTraceFile (n : List Char) : Bool :=
  htmlExtC.isSuffixOf n &&
    (match n with
     | [] => false
     | c :: _ => c ≠ '.')

/-- Python truthiness of the `duration` value: present and nonzero
(`if analysis['duration']:`). -/
def truthyDur (d : Option ℚ) : Bool :=
  match d with
  | some q => q ≠ 0
  | none => false

/-- `analysis['duration']` read as a number where the source compares it
(both sides are guaranteed truthy there). -/
def durVal (r : TraceRecord) : ℚ := r.duration.getD 0

/-- `app_groups[app].append(record)` on an insertion-ordered map
(`defaultdict(list)`). -/
def assocAppend (k : List Char) (v : TraceRecord) :
    List (List Char × List TraceRecord) → List (List Char × List TraceRecord)
  | [] => [(k, [v])]
  | (k2, vs) :: m => if k2 = k then (k2, vs ++ [v]) :: m else (k2, vs) :: assocAppend k v m

/-- `stats['apps'][app] += 1` on an insertion-ordered map (`defaultdict(int)`). -/
def assocInc (k : List Char) :
    List (List Char × ℕ) → List (List Char × ℕ)
  | [] => [(k, 1)]
  | (k2, n) :: m => if k2 = k then (k2, n + 1) :: m else (k2, n) :: assocInc k m

/-- The loop state of `_analyze_profiles`: the accumulating record list,
app grouping, size/count/app-count tallies, the local `durations` /
`total_duration` accumulators, and the running fastest/slowest. -/
structure FoldSt where
  analyzed : List TraceRecord
  groups : List (List Char × List TraceRecord)
  total_size : ℕ
  apps : List (List Char × ℕ)
  durations : List ℚ
  total_duration : ℚ
  fastest : Option TraceRecord
  slowest : Option TraceRecord
deriving DecidableEq

def initFoldSt : FoldSt :=
  { analyzed := [], groups := [], total_size := 0, apps := [],
    durations := [], total_duration := 0, fastest := none, slowest := none }

/-- The running-fastest update of `_analyze_profiles`:
`if not stats['fastest'] or analysis['duration'] < stats['fastest']['duration']`. -/
def updFastest (r : TraceRecord) (cur : Option TraceRecord) : Option TraceRecord :=
  match cur with
  | none => some r
  | some fr => if durVal r < durVal fr then some r else some fr

/-- The running-slowest update of `_analyze_profiles`:
`if not stats['slowest'] or analysis['duration'] > stats['slowest']['duration']`. -/
def updSlowest (r : TraceRecord) (cur : Option TraceRecord) : Option TraceRecord :=
  match cur with
  | none => some r
  | some sr => if durVal sr < durVal r then some r else some sr

/-- One iteration of the `_analyze_profiles` loop on one profile file.
`_parse_filename` always returns a (truthy) dict, so the `if analysis:`
guard of the source is the `Except.ok` case; the duration accumulators and
the fastest/slowest trackers are only touched under
`if analysis['duration']:`. -/
def stepFile (st : FoldSt) (f : FileInfo) : Except Unit FoldSt :=
  match parseFilenameE f.name f.mtime f.size with
  | .error e => .error e
  | .ok r =>
    let stBase :=
      { st with analyzed := st.analyzed ++ [r],
                groups := assocAppend r.app r st.groups,
                total_size := st.total_size + r.size,
                apps := assocInc r.app st.apps }
    if truthyDur r.duration then
      .ok { stBase with durations := st.durations ++ [durVal r],
                        total_duration := st.total_duration + durVal r,
                        fastest := updFastest r st.fastest,
                        slowest := updSlowest r st.slowest }
    else .ok stBase

def analyzeGo (st : FoldSt) : List FileInfo → Except Unit FoldSt
  | [] => .ok st
  | f :: fs =>
    match stepFile st f with
    | .error e => .error e
    | .ok st2 => analyzeGo st2 fs

/-- The `stats` dict of `ProfileAnalyzer` after `_analyze_profiles`. -/
structure AnalyzerStats where
  total_files : ℕ
  total_size : ℕ
  avg_duration : ℚ
  fastest : Option TraceRecord
  slowest : Option TraceRecord
  apps : List (List Char × ℕ)
deriving DecidableEq

/-- The analyzer's observable result: `analyzed_profiles`, `app_groups`,
`stats`. -/
structure AnalyzerResult where
  analyzed_profiles : List TraceRecord
  app_groups : List (List Char × List TraceRecord)
  stats : AnalyzerStats
deriving DecidableEq

/-- `ProfileAnalyzer.__init__` + `_analyze_profiles` over an already-listed
file sequence: `total_files` is the length of the glob listing, the loop
folds each file, and `avg_duration` is set at the end only when some
(truthy) duration was collected. -/
def analyzeProfilesE (files : List FileInfo) : Except Unit AnalyzerResult :=
  match analyzeGo initFoldSt files with
  | .error e => .error e
  | .ok st =>
    .ok { analyzed_profiles := st.analyzed,
          app_groups := st.groups,
          stats :=
            { total_files := files.length,
              total_size := st.total_size,
              avg_duration :=
                if st.durations.isEmpty then 0
                else st.total_duration / (st.durations.length : ℚ),
              fastest := st.fastest,
              slowest := st.slowest,
              apps := st.apps } }

/-- `ProfileAnalyzer(profiles_dir)`: `profiles_dir.glob('*.html')` then the
analysis fold. -/
def scanDirectory (listing : List FileInfo) : Except Unit AnalyzerResult :=
  analyzeProfilesE (listing.filter (fun f => isTraceFile f.name))

/-- Sort key of `sort_by='duration'`: `x['duration'] or 0`
(`None` and the falsy `0.0` both give `0`). -/
def durKey (r : TraceRecord) : ℚ :=
  match r.duration with
  | some d => if d = 0 then 0 else d
  | none => 0

/-- The `if app_filter:` step of `get_filtered_profiles` (Python
truthiness: a `None` or empty filter string filters nothing). -/
def appFilterStep (appF : Option (List Char)) (profiles : List TraceRecord) :
    List TraceRecord :=
  match appF with
  | some a => if a.isEmpty then profiles else profiles.filter (fun p => p.app = a)
  | none => profiles

/-- The `sort_by` dispatch of `get_filtered_profiles`.
`list.sort(key=…, reverse=True)` is a stable descending sort, embedded as
`List.insertionSort` with the reversed key order (Python's stable sort and
insertion sort agree); any other `sort_by` string leaves the order as-is. -/
def sortStep (sortBy : List Char) (ps : List TraceRecord) : List TraceRecord :=
  if sortBy = ("time" : String).data then
    ps.insertionSort (fun a b => b.timestamp ≤ a.timestamp)
  else if sortBy = ("duration" : String).data then
    ps.insertionSort (fun a b => durKey b ≤ durKey a)
  else if sortBy = ("size" : String).data then
    ps.insertionSort (fun a b => b.size ≤ a.size)
  else ps

/-- The `if limit:` truncation of `get_filtered_profiles` (Python
truthiness: `limit=0` behaves like `None`, i.e. no truncation). -/
def limitStep (limit : Option ℕ) (ps : List TraceRecord) : List TraceRecord :=
  match limit with
  | some k => if k ≠ 0 then ps.take k else ps
  | none => ps

/-- `ProfileAnalyzer.get_filtered_profiles(app_filter, limit, sort_by)`:
filter by app, sort (always descending), then truncate. -/
def getFilteredProfiles (profiles : List TraceRecord) (appF : Option (List Char))
    (limit : Option ℕ) (sortBy : List Char) : List TraceRecord :=
  limitStep limit (sortStep sortBy (appFilterStep appF profiles))

/-- One endpoint descriptor of the configuration
(`endpoint_config` dict of `make_request`): path, HTTP method
(`.get("method", "GET")`), whether auth headers are attached
(`.get("auth", False)`), whether a JSON body is configured
(`.get("data", None)`; its content does not influence the outcome fields). -/
structure EndpointConfig where
  endpoint : List Char
  method : List Char
  auth : Bool
  data : Bool
deriving DecidableEq

/-- What one `session.request` resolves to: an HTTP response
(status and body text) or a transport-level exception with its message
(`str(e)`). -/
inductive TransportResult where
  | response (status : ℕ) (body : List Char)
  | exc (msg : List Char)
deriving DecidableEq

/-- The per-request result dict of `make_request`. -/
structure RequestOutcome where
  endpoint : List Char
  method : List Char
  status : ℕ
  duration : ℚ
  content_length : ℕ
  success : Bool
  error : Option (List Char)
  auth_used : Bool
deriving DecidableEq

/-- The profiling marker appended to every request
(`endpoint += "&profile=1"` / `"?profile=1"`). -/
def withProfileParam (ep : List Char) : List Char :=
  if '?' ∈ ep then ep ++ ("&profile=1" : String).data
  else ep ++ ("?profile=1" : String).data

/-- `ProfileRunner.make_request(endpoint_config)`: the network interaction is
an input (`tr`), the measured wall-clock interval is an input (`elapsed`),
and the whole request is wrapped in `try…except Exception`, converting every
transport failure into a result dict instead of propagating. -/
def makeRequest (cfg : EndpointConfig) (tr : TransportResult) (elapsed : ℚ) :
    RequestOutcome :=
  let ep := withProfileParam cfg.endpoint
  match tr with
  | .response st body =>
    { endpoint := ep, method := cfg.method, status := st, duration := elapsed,
      content_length := body.length,
      success := decide (200 ≤ st) && decide (st < 400),
      error := none, auth_used := cfg.auth }
  | .exc msg =>
    { endpoint := ep, method := cfg.method, status := 0, duration := elapsed,
      content_length := 0, success := false, error := some msg,
      auth_used := cfg.auth }

/-- The task expansion of `run_endpoint_tests`: for each endpoint config,
`requests_per_endpoint` copies, in order. -/
def expandTasks (endpoints : List EndpointConfig) (repeats : ℕ) :
    List EndpointConfig :=
  endpoints.flatMap (fun e => List.replicate repeats e)

/-- `ProfileRunner.run_endpoint_tests(endpoints, concurrent,
requests_per_endpoint)`: the expanded task list is gathered to completion;
`asyncio.gather` returns one result per task, in task order, and
`make_request` never raises, so neither does the dispatch.  The transport
resolution and timing of task `i` are the inputs `net i` and `times i`
(the `concurrent` bound only schedules the tasks; the semaphore discipline
itself is `DispatchStep` below). -/
def runEndpointTests (endpoints : List EndpointConfig) (repeats : ℕ)
    (net : ℕ → TransportResult) (times : ℕ → ℚ) : List RequestOutcome :=
  let tasks := expandTasks endpoints repeats
  tasks.enum.map (fun p => makeRequest p.2 (net p.1) (times p.1))

/-- State of one dispatch campaign under the semaphore discipline of
`run_endpoint_tests`: tasks not yet started (still blocked in
`async with semaphore`), tasks whose request is in flight (inside the
semaphore), and tasks completed (semaphore released). -/
structure DispatchState where
  waiting : ℕ
  inFlight : ℕ
  done : ℕ
deriving DecidableEq

/-- The two scheduler events of the gathered `limited_request` tasks:
a task acquires the semaphore — only possible while fewer than
`c = concurrent` tasks hold it (`asyncio.Semaphore(concurrent)`) — and a
task's request completes, releasing the semaphore. -/
inductive DispatchStep (c : ℕ) : DispatchState → DispatchState → Prop
  | acquire (s : DispatchState) (hw : 0 < s.waiting) (h : s.inFlight < c) :
      DispatchStep c s ⟨s.waiting - 1, s.inFlight + 1, s.done⟩
  | release (s : DispatchState) (h : 0 < s.inFlight) :
      DispatchStep c s ⟨s.waiting, s.inFlight - 1, s.done + 1⟩

/-- All `n = len(endpoints) * repeats` tasks are scheduled eagerly and start
blocked on the semaphore. -/
def dispatchInit (n : ℕ) : DispatchState := ⟨n, 0, 0⟩

/-- The states a campaign with concurrency `c` and `n` tasks can reach. -/
def DispatchReachable (c n : ℕ) (s : DispatchState) : Prop :=
  Relation.ReflTransGen (DispatchStep c) (dispatchInit n) s

/-- `cutoff_time = time.time() - (options['days'] * 24 * 3600)`. -/
def sweepCutoff (now : ℚ) (days : ℕ) : ℚ := now - (days * 24 * 3600 : ℕ)

/-- Whether `handle_clean` selects a directory entry for deletion: it is a
globbed trace file and `profile_file.stat().st_mtime < cutoff_time`. -/
def sweepSelects (now : ℚ) (days : ℕ) (f : FileInfo) : Bool :=
  isTraceFile f.name && decide ((f.mtime : ℚ) < sweepCutoff now days)

/-- `Command.handle_clean(options)`: select the trace files strictly older
than `cutoff = time.time() - days*24*3600`; under `--dry-run` only report
them, otherwise `unlink` each one.  Returns `files_to_delete` and the
directory listing after the call.  (`now` is `time.time()`; clock values
are `ℚ`; a successful `unlink` removes exactly that entry.) -/
def handleClean (listing : List FileInfo) (now : ℚ) (days : ℕ) (dryRun : Bool) :
    List FileInfo × List FileInfo :=
  let files_to_delete := listing.filter (sweepSelects now days)
  if dryRun then (files_to_delete, listing)
  else (files_to_delete, listing.filter (fun f => !(sweepSelects now days f)))

/-- What the login `POST` resolves to: the response status together with
what `await response.json()` then delivers — `.error` when the body is not
a JSON object (a raised `JSONDecodeError`/`AttributeError`), otherwise the
object's entries, each value either a string or JSON `null`. -/
structure AuthHttpResponse where
  status : ℕ
  jsonBody : Except Unit (List (List Char × Option (List Char)))

/-- `ProfileRunner.authenticate`: the whole exchange sits in a
`try…except Exception`; the token is stored only by
`if response.status == 200: self.auth_token = data.get("access")`.
Returns the resulting `auth_token` (`none` = left unset, since Python's
`dict.get` also yields `None` for a missing or null `"access"`).  Total:
`authenticate` never raises, so the campaign always proceeds. -/
def authenticate (resp : Except (List Char) AuthHttpResponse) :
    Option (List Char) :=
  match resp with
  | .error _ => none
  | .ok r =>
    if r.status = 200 then
      match r.jsonBody with
      | .error _ => none
      | .ok d =>
        match d.lookup (("access" : String).data) with
        | some v => v
        | none => none
    else none

/-- `ProfileRunner.get_auth_headers`. -/
def getAuthHeaders (token : Option (List Char)) : List (List Char × List Char) :=
  match token with
  | some t => [(("Authorization" : String).data, ("Bearer " : String).data ++ t)]
  | none => []

/-- The durations the analyzer actually collects: records whose `duration`
is present and nonzero, in scan order (the Python-truthiness filter of
`if analysis['duration']:`). -/
def truthyDurations (rs : List TraceRecord) : List ℚ :=
  rs.filterMap (fun r =>
    match r.duration with
    | some d => if d ≠ 0 then some d else none
    | none => none)

/-- Loop invariant of `_analyze_profiles` relating the accumulators to the
records already processed. -/
def FoldInv (st : FoldSt) : Prop :=
  st.durations = truthyDurations st.analyzed ∧
  st.total_duration = (truthyDurations st.analyzed).sum ∧
  st.total_size = (st.analyzed.map TraceRecord.size).sum ∧
  (st.fastest = none ↔ truthyDurations st.analyzed = []) ∧
  (∀ fr, st.fastest = some fr → truthyDur fr.duration = true ∧ fr ∈ st.analyzed ∧
    ∀ r ∈ st.analyzed, truthyDur r.duration = true → durVal fr ≤ durVal r) ∧
  (st.slowest = none ↔ truthyDurations st.analyzed = []) ∧
  (∀ sr, st.slowest = some sr → truthyDur sr.duration = true ∧ sr ∈ st.analyzed ∧
    ∀ r ∈ st.analyzed, truthyDur r.duration = true → durVal r ≤ durVal sr)

/-- The average the spec's words prescribe for C4: the mean over exactly the
records with a *known* (present) duration, a known zero counting like any
other value; `0` when no duration is known.  (Spec-side definition, to be
compared with the code's `avg_duration`.) -/
def specAvgKnownDurations (rs : List TraceRecord) : ℚ :=
  let known := rs.filterMap (fun r => r.duration)
  if known.isEmpty then 0 else known.sum / (known.length : ℚ)

/-- Demo records and files used by concrete witnesses and counterexamples. -/
def demoRecA : TraceRecord :=
  { filename := ("a.html" : String).data, duration := none,
    endpoint := ("aa" : String).data, app := ("other" : String).data,
    timestamp := 10, size := 5 }

def demoRecB : TraceRecord :=
  { filename := ("b.html" : String).data, duration := some 2,
    endpoint := ("bb" : String).data, app := ("other" : String).data,
    timestamp := 20, size := 9 }

/-- A file whose parse yields a (known) duration of exactly `0.0`
(pattern 1: `"0s"`), and one with duration `2.0`. -/
def demoFileZero : FileInfo :=
  ⟨("0s _ aaa ?profile=1 _ 100.html" : String).data, 50, 10⟩

def demoFileTwo : FileInfo :=
  ⟨("2s _ bbb ?profile=1 _ 100.html" : String).data, 50, 20⟩

/-- The canonical E2E-scenario-A trace file. -/
def demoFileCanonical : FileInfo :=
  ⟨("0.123s _ api/v1/users ?profile=1 _ 1700000000.html" : String).data,
   1700000001, 2048⟩

/-- A directory entry `glob('*.html')` does not list. -/
def demoFileNonTrace : FileInfo := ⟨("notes.txt" : String).data, 50, 33⟩

/-- E2E scenario D: with `now = 1000000` and `days = 7`
(cutoff `1000000 - 604800 = 395200`), a trace file aged 10 days
(mtime `136000`) and one aged 1 day (mtime `913600`). -/
def demoFileOld : FileInfo := ⟨("old.html" : String).data, 136000, 4⟩

def demoFileYoung : FileInfo := ⟨("young.html" : String).data, 913600, 6⟩

end Profile

namespace Profile

theorem length_dropWhile_le (p : Char → Bool) (l : List Char) :
    (List.dropWhile p l).length ≤ l.length :=
  (List.dropWhile_sublist p).length_le

theorem takeWhile_all (p : Char → Bool) (a : List Char) (ha : ∀ x ∈ a, p x = true) :
    List.takeWhile p a = a ∧ List.dropWhile p a = [] := by
  induction a with
  | nil => simp
  | cons x xs ih =>
    have hx : p x = true := ha x (by simp)
    have ihx := ih (fun y hy => ha y (by simp [hy]))
    simp [List.takeWhile_cons, List.dropWhile_cons, hx, ihx.1, ihx.2]

theorem takeWhile_append_stop (p : Char → Bool) (a : List Char) (c : Char)
    (b : List Char) (ha : ∀ x ∈ a, p x = true) (hc : p c = false) :
    List.takeWhile p (a ++ c :: b) = a ∧ List.dropWhile p (a ++ c :: b) = c :: b := by
  induction a with
  | nil => simp [List.takeWhile_cons, List.dropWhile_cons, hc]
  | cons x xs ih =>
    have hx : p x = true := ha x (by simp)
    have ihx := ih (fun y hy => ha y (by simp [hy]))
    simp [List.takeWhile_cons, List.dropWhile_cons, hx, ihx.1, ihx.2]

theorem floatE_digits (ds : List Char) (h1 : ds ≠ [])
    (h2 : ∀ x ∈ ds, x.isDigit = true) :
    floatE ds = Except.ok (decValue ds []) := by
  obtain ⟨hta, hda⟩ := takeWhile_all Char.isDigit ds h2
  unfold floatE
  rw [hta, hda]
  simp [h1]

theorem floatE_dec (ds fs : List Char) (h1 : ds ≠ [])
    (h2 : ∀ x ∈ ds, x.isDigit = true) (h3 : ∀ x ∈ fs, x.isDigit = true) :
    floatE (ds ++ '.' :: fs) = Except.ok (decValue ds fs) := by
  obtain ⟨hta, hda⟩ := takeWhile_append_stop Char.isDigit ds '.' fs h2 (by decide)
  obtain ⟨htf, hdf⟩ := takeWhile_all Char.isDigit fs h3
  unfold floatE
  rw [hta, hda]
  simp [htf, hdf, h1]

theorem matchNum_floatE (l tok r : List Char) (h : matchNum l = some (tok, r)) :
    ∃ q, floatE tok = Except.ok q := by
  cases l with
  | nil => simp [matchNum] at h
  | cons c ls =>
    by_cases hd : c.isDigit = true
    · simp only [matchNum, hd, if_true] at h
      have hne : List.takeWhile Char.isDigit (c :: ls) ≠ [] := by
        simp [List.takeWhile_cons, hd]
      have hdig : ∀ x ∈ List.takeWhile Char.isDigit (c :: ls), x.isDigit = true :=
        fun x hx => List.mem_takeWhile_imp hx
      split at h
      · rw [Option.some.injEq, Prod.mk.injEq] at h
        obtain ⟨htok, _⟩ := h
        subst htok
        exact ⟨_, floatE_dec _ _ hne hdig (fun x hx => List.mem_takeWhile_imp hx)⟩
      · rw [Option.some.injEq, Prod.mk.injEq] at h
        obtain ⟨htok, _⟩ := h
        subst htok
        exact ⟨_, floatE_digits _ hne hdig⟩
    · simp only [matchNum, hd, if_false] at h
      exact absurd h (by simp [hd])

theorem intE_nonneg (l : List Char) (n : ℤ) (h : intE l = Except.ok n) : 0 ≤ n := by
  unfold intE at h
  split at h
  · exact absurd h (by simp)
  · rw [Except.ok.injEq] at h
    subst h
    exact Int.ofNat_nonneg _

theorem resolveTsE_ok (tok : Option (List Char)) (mtime : ℕ) :
    ∃ n, resolveTsE tok mtime = Except.ok n ∧ 0 ≤ n := by
  cases tok with
  | none =>
    by_cases hr : tsInRange (mtime : ℤ) = true
    · by_cases hm : (mtime : ℤ) = 0
      · exact ⟨0, by simp [resolveTsE, hr, hm], le_refl 0⟩
      · exact ⟨(mtime : ℤ), by simp [resolveTsE, hr, hm], Int.ofNat_nonneg _⟩
    · exact ⟨0, by simp [resolveTsE, hr], le_refl 0⟩
  | some t =>
    cases hi : intE t with
    | error e => exact ⟨0, by simp [resolveTsE, hi], le_refl 0⟩
    | ok n =>
      by_cases hr : tsInRange n = true
      · by_cases he : t.isEmpty = true
        · exact ⟨0, by simp [resolveTsE, hi, hr, he], le_refl 0⟩
        · exact ⟨n, by simp [resolveTsE, hi, hr, he], intE_nonneg t n hi⟩
      · exact ⟨0, by simp [resolveTsE, hi, hr], le_refl 0⟩

theorem pat6Result_tag (l : List Char) (b : Bool) (g : PatGroups)
    (h : pat6Result l = some (b, g)) : b = true := by
  unfold pat6Result at h
  split at h
  · rw [Option.some.injEq, Prod.mk.injEq] at h
    exact h.1.symm
  · exact absurd h (by simp)

theorem pats15_duration (dur r0 : List Char) (g : PatGroups)
    (h : pats15 dur r0 = some g) : g.duration = dur := by
  unfold pats15 at h
  split at h
  · rw [Option.some.injEq] at h; subst h; rfl
  · split at h
    · rw [Option.some.injEq] at h; subst h; rfl
    · split at h
      · rw [Option.some.injEq] at h; subst h; rfl
      · split at h
        · rw [Option.some.injEq] at h; subst h; rfl
        · split at h
          · rw [Option.some.injEq] at h; subst h; rfl
          · exact absurd h (by simp)

theorem tryPatterns_duration (l : List Char) (g : PatGroups)
    (h : tryPatterns l = some (false, g)) :
    ∃ r, matchNum l = some (g.duration, r) := by
  unfold tryPatterns at h
  split at h
  · exact absurd (pat6Result_tag l false g h) (by simp)
  · rename_i dur r0 hm
    split at h
    · exact absurd (pat6Result_tag l false g h) (by simp)
    · split at h
      · rename_i g2 hp
        rw [Option.some.injEq, Prod.mk.injEq] at h
        rw [← h.2, pats15_duration _ _ _ hp]
        exact ⟨r0, hm⟩
      · exact absurd (pat6Result_tag l false g h) (by simp)

theorem findNums_floatE (l : List Char) :
    ∀ t ∈ findNums l, ∃ q, floatE t = Except.ok q := by
  induction l using findNums.induct with
  | case1 =>
    intro t ht
    simp [findNums] at ht
  | case2 c ls hd r2 hdw ih =>
    intro t ht
    unfold findNums at ht
    rw [if_pos hd, hdw] at ht
    have hne : List.takeWhile Char.isDigit (c :: ls) ≠ [] := by
      simp [List.takeWhile_cons, hd]
    have hdig : ∀ x ∈ List.takeWhile Char.isDigit (c :: ls), x.isDigit = true :=
      fun x hx => List.mem_takeWhile_imp hx
    rcases List.mem_cons.mp ht with h1 | h1
    · subst h1
      exact ⟨_, floatE_dec _ _ hne hdig (fun x hx => List.mem_takeWhile_imp hx)⟩
    · exact ih t h1
  | case3 c ls hd hnodot ih =>
    intro t ht
    unfold findNums at ht
    rw [if_pos hd] at ht
    have hne : List.takeWhile Char.isDigit (c :: ls) ≠ [] := by
      simp [List.takeWhile_cons, hd]
    have hdig : ∀ x ∈ List.takeWhile Char.isDigit (c :: ls), x.isDigit = true :=
      fun x hx => List.mem_takeWhile_imp hx
    split at ht
    · rename_i r2 hdw
      exact absurd hdw (by intro hh; exact hnodot r2 hh)
    · rcases List.mem_cons.mp ht with h1 | h1
      · subst h1
        exact ⟨_, floatE_digits _ hne hdig⟩
      · exact ih t h1
  | case4 c ls hd ih =>
    intro t ht
    unfold findNums at ht
    rw [if_neg hd] at ht
    exact ih t ht

theorem matchPhase_ok (l : List Char) : ∃ v, matchPhase l = Except.ok v := by
  cases htp : tryPatterns l with
  | none =>
    cases hh : (findNums l).head? with
    | none => exact ⟨_, by simp [matchPhase, htp, hh] <;> rfl⟩
    | some t =>
      have ht : t ∈ findNums l := by
        cases hfn : findNums l with
        | nil => rw [hfn] at hh; simp at hh
        | cons a as =>
          rw [hfn] at hh
          simp only [List.head?_cons, Option.some.injEq] at hh
          simp [hh]
      obtain ⟨q, hq⟩ := findNums_floatE l t ht
      by_cases hdot : '.' ∈ t
      · exact ⟨_, by simp [matchPhase, htp, hh, hdot, hq, Except.map] <;> rfl⟩
      · exact ⟨_, by simp [matchPhase, htp, hh, hdot] <;> rfl⟩
  | some bg =>
    obtain ⟨b, g⟩ := bg
    cases b
    · by_cases hde : g.duration.isEmpty = true
      · exact ⟨_, by simp [matchPhase, htp, hde] <;> rfl⟩
      · obtain ⟨r, hm⟩ := tryPatterns_duration l g htp
        obtain ⟨q, hq⟩ := matchNum_floatE l g.duration r hm
        exact ⟨_, by simp [matchPhase, htp, hde, hq, Except.map] <;> rfl⟩
    · exact ⟨_, by simp [matchPhase, htp] <;> rfl⟩

theorem parseFilenameE_ok (fn : List Char) (mtime size : ℕ) :
    ∃ r, parseFilenameE fn mtime size = Except.ok r ∧ r.filename = fn ∧
      r.size = size ∧ 0 ≤ r.timestamp ∧ r.app = extractApp r.endpoint := by
  obtain ⟨v, hv⟩ := matchPhase_ok fn
  obtain ⟨d, ep, tok⟩ := v
  obtain ⟨n, hn, hnn⟩ := resolveTsE_ok tok mtime
  exact ⟨{ filename := fn, duration := d, endpoint := ep, app := extractApp ep,
           timestamp := n, size := size },
         by simp [parseFilenameE, hv, hn], rfl, rfl, hnn, rfl⟩

end Profile

namespace Profile

/-- C1 (amended): for every filename string and file metadata, the embedded
`_parse_filename` returns `Except.ok` — no exception escapes any of its
paths — and the resulting record always carries the original filename, the
stat size, a non-negative integer timestamp, and the app classification of
its endpoint; moreover a filename matching none of the six patterns still
yields a best-effort record through the numeric-substring / strip-digits
fallback, whose endpoint is never empty.  (The original claim's
parentheticals — endpoint never empty, app always populated — are false on
the pattern path: see the counterexample.) -/
theorem claim1_parser_totality (fn : List Char) (mtime size : ℕ) :
    ∃ r, parseFilenameE fn mtime size = Except.ok r ∧ r.filename = fn ∧
      r.size = size ∧ 0 ≤ r.timestamp ∧ r.app = extractApp r.endpoint ∧
      (tryPatterns fn = none → r.endpoint ≠ []) := by
  obtain ⟨v, hv⟩ := matchPhase_ok fn
  obtain ⟨d, ep, tok⟩ := v
  obtain ⟨n, hn, hnn⟩ := resolveTsE_ok tok mtime
  refine ⟨{ filename := fn, duration := d, endpoint := ep, app := extractApp ep,
            timestamp := n, size := size },
          by simp [parseFilenameE, hv, hn], rfl, rfl, hnn, rfl, ?_⟩
  intro htp
  unfold matchPhase at hv
  rw [htp] at hv
  dsimp only [] at hv
  split at hv
  · exact absurd hv (by simp)
  · simp only [Except.ok.injEq, Prod.mk.injEq] at hv
    obtain ⟨-, hep, -⟩ := hv
    show ep ≠ []
    rw [← hep]
    split
    · decide
    · rename_i hne
      intro hnil
      exact hne (by rw [hnil]; rfl)

/-- C1 counterexample: the claim as stated is false — parsing the filename
`"0.1s _ _ ?profile=1 _ 123.html"` (pattern 1 captures the endpoint group
`"_"`, which `strip('_').strip()` reduces to `""`) yields an **empty**
endpoint, and parsing `"1.5s a//b 123.html"` (pattern 5, endpoint `"a//b"`,
whose second path segment is empty) yields an **empty** app label. -/
theorem claim1_counterexample :
    ((parseFilenameE (("0.1s _ _ ?profile=1 _ 123.html" : String).data) 55 7).toOption.map
      (fun r => r.endpoint) = some []) ∧
    ((parseFilenameE (("1.5s a//b 123.html" : String).data) 55 7).toOption.map
      (fun r => r.app) = some []) := by
  constructor
  · decide
  · decide

/-- C1 witness: the totality theorem applied to a concrete filename. -/
theorem claim1_witness :
    (parseFilenameE (("0.5s _ epname _ 777.html" : String).data) 55 7).isOk = true := by
  obtain ⟨r, h, -⟩ :=
    claim1_parser_totality (("0.5s _ epname _ 777.html" : String).data) 55 7
  rw [h]
  rfl

/-- C2: every `RequestOutcome` the dispatcher produces satisfies
`success = (200 <= status_code < 400 and error is None)`, and a
transport-level exception always yields `success = false`,
`status_code = 0`, and a non-null error string. -/
theorem claim2_success_invariant (cfg : EndpointConfig) (tr : TransportResult)
    (elapsed : ℚ) :
    ((makeRequest cfg tr elapsed).success = true ↔
      (200 ≤ (makeRequest cfg tr elapsed).status ∧
       (makeRequest cfg tr elapsed).status < 400 ∧
       (makeRequest cfg tr elapsed).error = none)) ∧
    (∀ msg, tr = TransportResult.exc msg →
      (makeRequest cfg tr elapsed).success = false ∧
      (makeRequest cfg tr elapsed).status = 0 ∧
      (makeRequest cfg tr elapsed).error = some msg) := by
  cases tr with
  | response st body =>
    refine ⟨?_, ?_⟩
    · simp [makeRequest]
    · intro msg h
      exact absurd h (by simp)
  | exc msg =>
    refine ⟨?_, ?_⟩
    · simp [makeRequest]
    · intro msg2 h
      rw [TransportResult.exc.injEq] at h
      subst h
      exact ⟨rfl, rfl, rfl⟩

/-- C2 witness: the invariant applied to a concrete transport failure. -/
theorem claim2_witness :
    (makeRequest ⟨("/x" : String).data, ("GET" : String).data, false, false⟩
        (TransportResult.exc ("boom" : String).data) 1).success = false ∧
    (makeRequest ⟨("/x" : String).data, ("GET" : String).data, false, false⟩
        (TransportResult.exc ("boom" : String).data) 1).status = 0 ∧
    (makeRequest ⟨("/x" : String).data, ("GET" : String).data, false, false⟩
        (TransportResult.exc ("boom" : String).data) 1).error =
      some ("boom" : String).data :=
  (claim2_success_invariant ⟨("/x" : String).data, ("GET" : String).data, false, false⟩
      (TransportResult.exc ("boom" : String).data) 1).2
    (("boom" : String).data) rfl

end Profile

namespace Profile

theorem limitStep_pairwise (r : TraceRecord → TraceRecord → Prop) (limit : Option ℕ)
    (ps : List TraceRecord) (h : ps.Pairwise r) : (limitStep limit ps).Pairwise r := by
  cases limit with
  | none => exact h
  | some k =>
    by_cases hk : k ≠ 0
    · rw [show limitStep (some k) ps = ps.take k from by simp [limitStep, hk]]
      exact List.Pairwise.sublist (List.take_sublist k ps) h
    · rw [show limitStep (some k) ps = ps from by simp [limitStep, hk]]
      exact h

theorem sortStep_time_pairwise (ps : List TraceRecord) :
    (sortStep (("time" : String).data) ps).Pairwise
      (fun a b => b.timestamp ≤ a.timestamp) := by
  unfold sortStep
  rw [if_pos rfl]
  haveI ht : IsTotal TraceRecord (fun a b => b.timestamp ≤ a.timestamp) :=
    ⟨fun a b => le_total b.timestamp a.timestamp⟩
  haveI htr : IsTrans TraceRecord (fun a b => b.timestamp ≤ a.timestamp) :=
    ⟨fun a b c h1 h2 => le_trans h2 h1⟩
  exact List.sorted_insertionSort _ ps

theorem sortStep_duration_pairwise (ps : List TraceRecord) :
    (sortStep (("duration" : String).data) ps).Pairwise
      (fun a b => durKey b ≤ durKey a) := by
  unfold sortStep
  rw [if_neg (by decide), if_pos rfl]
  haveI ht : IsTotal TraceRecord (fun a b => durKey b ≤ durKey a) :=
    ⟨fun a b => le_total (durKey b) (durKey a)⟩
  haveI htr : IsTrans TraceRecord (fun a b => durKey b ≤ durKey a) :=
    ⟨fun a b c h1 h2 => le_trans h2 h1⟩
  exact List.sorted_insertionSort _ ps

theorem sortStep_size_pairwise (ps : List TraceRecord) :
    (sortStep (("size" : String).data) ps).Pairwise
      (fun a b => b.size ≤ a.size) := by
  unfold sortStep
  rw [if_neg (by decide), if_neg (by decide), if_pos rfl]
  haveI ht : IsTotal TraceRecord (fun a b => b.size ≤ a.size) :=
    ⟨fun a b => le_total b.size a.size⟩
  haveI htr : IsTrans TraceRecord (fun a b => b.size ≤ a.size) :=
    ⟨fun a b c h1 h2 => le_trans h2 h1⟩
  exact List.sorted_insertionSort _ ps

/-- C3 (amended): `get_filtered_profiles` is deterministic (two applications
to the same input agree); the result is descending for each of the three
sort keys (most recent / slowest / largest first); the app filter commutes
with pre-filtering the input (it is applied before sorting); and for every
limit `k ≥ 1` the limited result is exactly the first `k` elements of the
unlimited, sorted result.  (The original claim's "for every limit k" fails
at `k = 0`, which Python truthiness treats as "no limit": see the
counterexample.) -/
theorem claim3_filter_sort_limit (profiles : List TraceRecord)
    (appF : Option (List Char)) (limit : Option ℕ) (sortBy : List Char) :
    (getFilteredProfiles profiles appF limit sortBy =
      getFilteredProfiles profiles appF limit sortBy) ∧
    (getFilteredProfiles profiles appF limit (("time" : String).data)).Pairwise
      (fun a b => b.timestamp ≤ a.timestamp) ∧
    (getFilteredProfiles profiles appF limit (("duration" : String).data)).Pairwise
      (fun a b => durKey b ≤ durKey a) ∧
    (getFilteredProfiles profiles appF limit (("size" : String).data)).Pairwise
      (fun a b => b.size ≤ a.size) ∧
    (∀ k : ℕ, 1 ≤ k → getFilteredProfiles profiles appF (some k) sortBy =
      (getFilteredProfiles profiles appF none sortBy).take k) ∧
    (∀ a : List Char, a ≠ [] → getFilteredProfiles profiles (some a) limit sortBy =
      getFilteredProfiles (profiles.filter (fun p => p.app = a)) none limit sortBy) := by
  refine ⟨rfl, ?_, ?_, ?_, ?_, ?_⟩
  · exact limitStep_pairwise _ _ _ (sortStep_time_pairwise _)
  · exact limitStep_pairwise _ _ _ (sortStep_duration_pairwise _)
  · exact limitStep_pairwise _ _ _ (sortStep_size_pairwise _)
  · intro k hk
    have hk0 : k ≠ 0 := by omega
    simp [getFilteredProfiles, limitStep, hk0]
  · intro a ha
    have hae : a.isEmpty = false := by cases a <;> simp_all
    simp [getFilteredProfiles, appFilterStep, hae]

/-- C3 counterexample: with `limit = 0` the code returns the whole sorted
list (Python truthiness: `if limit:`), not the first `0` elements, so
"for every limit k, the result is exactly the first k elements" is false. -/
theorem claim3_counterexample :
    getFilteredProfiles [demoRecA] none (some 0) (("duration" : String).data) ≠
      (getFilteredProfiles [demoRecA] none none (("duration" : String).data)).take 0 := by
  decide

/-- C3 witness: the limit property applied at `k = 1` on a concrete
two-record list, plus the concrete evaluation (the largest record first). -/
theorem claim3_witness :
    (getFilteredProfiles [demoRecA, demoRecB] none (some 1) (("size" : String).data) =
      (getFilteredProfiles [demoRecA, demoRecB] none none (("size" : String).data)).take 1) ∧
    getFilteredProfiles [demoRecA, demoRecB] none (some 1) (("size" : String).data) =
      [demoRecB] := by
  constructor
  · exact (claim3_filter_sort_limit [demoRecA, demoRecB] none none
      (("size" : String).data)).2.2.2.2.1 1 (by decide)
  · decide

end Profile

namespace Profile

theorem truthyDurations_append (xs : List TraceRecord) (r : TraceRecord) :
    truthyDurations (xs ++ [r]) =
      truthyDurations xs ++ (if truthyDur r.duration then [durVal r] else []) := by
  unfold truthyDurations
  rw [List.filterMap_append]
  congr 1
  cases hd : r.duration with
  | none => simp [truthyDur, hd]
  | some d =>
    by_cases h0 : d = 0
    · simp [truthyDur, hd, h0]
    · simp [truthyDur, hd, h0, durVal]

theorem mem_truthy_ne_nil (xs : List TraceRecord) (r : TraceRecord)
    (hm : r ∈ xs) (ht : truthyDur r.duration = true) : truthyDurations xs ≠ [] := by
  apply List.ne_nil_of_mem (a := durVal r)
  unfold truthyDurations
  apply List.mem_filterMap.mpr
  refine ⟨r, hm, ?_⟩
  cases hd : r.duration with
  | none =>
    rw [hd] at ht
    simp [truthyDur] at ht
  | some d =>
    rw [hd] at ht
    simp only [truthyDur, decide_eq_true_eq] at ht
    simp [hd, ht, durVal]

theorem updFastest_min (r : TraceRecord) (cur : Option TraceRecord)
    (analyzed : List TraceRecord) (ht : truthyDur r.duration = true)
    (hnone : cur = none ↔ truthyDurations analyzed = [])
    (hcur : ∀ fr, cur = some fr → truthyDur fr.duration = true ∧ fr ∈ analyzed ∧
      ∀ x ∈ analyzed, truthyDur x.duration = true → durVal fr ≤ durVal x) :
    (updFastest r cur = none ↔ truthyDurations (analyzed ++ [r]) = []) ∧
    (∀ fr, updFastest r cur = some fr → truthyDur fr.duration = true ∧
      fr ∈ analyzed ++ [r] ∧
      ∀ x ∈ analyzed ++ [r], truthyDur x.duration = true → durVal fr ≤ durVal x) := by
  have hne : truthyDurations (analyzed ++ [r]) ≠ [] :=
    mem_truthy_ne_nil _ r (by simp) ht
  cases cur with
  | none =>
    refine ⟨by simp [updFastest, hne], ?_⟩
    intro fr hfr
    rw [updFastest, Option.some.injEq] at hfr
    subst hfr
    refine ⟨ht, by simp, ?_⟩
    intro x hx htx
    rcases List.mem_append.mp hx with hx1 | hx1
    · exact absurd (hnone.mp rfl) (mem_truthy_ne_nil _ x hx1 htx)
    · rw [List.mem_singleton.mp hx1]
  | some fr0 =>
    obtain ⟨htf, hmem, hmin⟩ := hcur fr0 rfl
    by_cases hc : durVal r < durVal fr0
    · rw [show updFastest r (some fr0) = some r from by simp [updFastest, hc]]
      refine ⟨by simp [hne], ?_⟩
      intro fr hfr
      rw [Option.some.injEq] at hfr
      subst hfr
      refine ⟨ht, by simp, ?_⟩
      intro x hx htx
      rcases List.mem_append.mp hx with hx1 | hx1
      · exact le_trans (le_of_lt hc) (hmin x hx1 htx)
      · rw [List.mem_singleton.mp hx1]
    · rw [show updFastest r (some fr0) = some fr0 from by simp [updFastest, hc]]
      refine ⟨by simp [hne], ?_⟩
      intro fr hfr
      rw [Option.some.injEq] at hfr
      subst hfr
      refine ⟨htf, by simp [hmem], ?_⟩
      intro x hx htx
      rcases List.mem_append.mp hx with hx1 | hx1
      · exact hmin x hx1 htx
      · rw [List.mem_singleton.mp hx1]
        exact le_of_not_lt hc

theorem updSlowest_max (r : TraceRecord) (cur : Option TraceRecord)
    (analyzed : List TraceRecord) (ht : truthyDur r.duration = true)
    (hnone : cur = none ↔ truthyDurations analyzed = [])
    (hcur : ∀ sr, cur = some sr → truthyDur sr.duration = true ∧ sr ∈ analyzed ∧
      ∀ x ∈ analyzed, truthyDur x.duration = true → durVal x ≤ durVal sr) :
    (updSlowest r cur = none ↔ truthyDurations (analyzed ++ [r]) = []) ∧
    (∀ sr, updSlowest r cur = some sr → truthyDur sr.duration = true ∧
      sr ∈ analyzed ++ [r] ∧
      ∀ x ∈ analyzed ++ [r], truthyDur x.duration = true → durVal x ≤ durVal sr) := by
  have hne : truthyDurations (analyzed ++ [r]) ≠ [] :=
    mem_truthy_ne_nil _ r (by simp) ht
  cases cur with
  | none =>
    refine ⟨by simp [updSlowest, hne], ?_⟩
    intro sr hsr
    rw [updSlowest, Option.some.injEq] at hsr
    subst hsr
    refine ⟨ht, by simp, ?_⟩
    intro x hx htx
    rcases List.mem_append.mp hx with hx1 | hx1
    · exact absurd (hnone.mp rfl) (mem_truthy_ne_nil _ x hx1 htx)
    · rw [List.mem_singleton.mp hx1]
  | some sr0 =>
    obtain ⟨hts, hmem, hmax⟩ := hcur sr0 rfl
    by_cases hc : durVal sr0 < durVal r
    · rw [show updSlowest r (some sr0) = some r from by simp [updSlowest, hc]]
      refine ⟨by simp [hne], ?_⟩
      intro sr hsr
      rw [Option.some.injEq] at hsr
      subst hsr
      refine ⟨ht, by simp, ?_⟩
      intro x hx htx
      rcases List.mem_append.mp hx with hx1 | hx1
      · exact le_trans (hmax x hx1 htx) (le_of_lt hc)
      · rw [List.mem_singleton.mp hx1]
    · rw [show updSlowest r (some sr0) = some sr0 from by simp [updSlowest, hc]]
      refine ⟨by simp [hne], ?_⟩
      intro sr hsr
      rw [Option.some.injEq] at hsr
      subst hsr
      refine ⟨hts, by simp [hmem], ?_⟩
      intro x hx htx
      rcases List.mem_append.mp hx with hx1 | hx1
      · exact hmax x hx1 htx
      · rw [List.mem_singleton.mp hx1]
        exact le_of_not_lt hc

end Profile

namespace Profile

theorem initFoldSt_inv : FoldInv initFoldSt := by
  refine ⟨rfl, rfl, rfl, by simp [initFoldSt, truthyDurations], ?_, by simp [initFoldSt, truthyDurations], ?_⟩
  · intro fr hfr
    exact absurd hfr (by simp [initFoldSt])
  · intro sr hsr
    exact absurd hsr (by simp [initFoldSt])

theorem stepFile_inv (st : FoldSt) (f : FileInfo) (hinv : FoldInv st) :
    ∃ st2, stepFile st f = Except.ok st2 ∧ FoldInv st2 ∧
      st2.analyzed.length = st.analyzed.length + 1 := by
  obtain ⟨hdur, htot, hsize, hfn, hfmin, hsn, hsmax⟩ := hinv
  obtain ⟨r, hp, -, -, -, -⟩ := parseFilenameE_ok f.name f.mtime f.size
  by_cases ht : truthyDur r.duration = true
  · refine ⟨{ analyzed := st.analyzed ++ [r],
              groups := assocAppend r.app r st.groups,
              total_size := st.total_size + r.size,
              apps := assocInc r.app st.apps,
              durations := st.durations ++ [durVal r],
              total_duration := st.total_duration + durVal r,
              fastest := updFastest r st.fastest,
              slowest := updSlowest r st.slowest },
            by simp [stepFile, hp, ht], ?_, by simp⟩
    obtain ⟨hf1, hf2⟩ := updFastest_min r st.fastest st.analyzed ht hfn hfmin
    obtain ⟨hs1, hs2⟩ := updSlowest_max r st.slowest st.analyzed ht hsn hsmax
    refine ⟨?_, ?_, ?_, hf1, hf2, hs1, hs2⟩
    · rw [truthyDurations_append, if_pos ht, hdur]
    · rw [truthyDurations_append, if_pos ht, List.sum_append, htot]
      simp
    · simp [hsize]
  · refine ⟨{ analyzed := st.analyzed ++ [r],
              groups := assocAppend r.app r st.groups,
              total_size := st.total_size + r.size,
              apps := assocInc r.app st.apps,
              durations := st.durations,
              total_duration := st.total_duration,
              fastest := st.fastest,
              slowest := st.slowest },
            by simp [stepFile, hp, ht], ?_, by simp⟩
    have htd : truthyDurations (st.analyzed ++ [r]) = truthyDurations st.analyzed := by
      rw [truthyDurations_append, if_neg ht]
      simp
    refine ⟨?_, ?_, ?_, ?_, ?_, ?_, ?_⟩
    · rw [htd]; exact hdur
    · rw [htd]; exact htot
    · simp [hsize]
    · rw [htd]; exact hfn
    · intro fr hfr
      obtain ⟨h1, h2, h3⟩ := hfmin fr hfr
      refine ⟨h1, by simp [h2], ?_⟩
      intro x hx htx
      rcases List.mem_append.mp hx with hx1 | hx1
      · exact h3 x hx1 htx
      · rw [List.mem_singleton.mp hx1] at htx
        exact absurd htx ht
    · rw [htd]; exact hsn
    · intro sr hsr
      obtain ⟨h1, h2, h3⟩ := hsmax sr hsr
      refine ⟨h1, by simp [h2], ?_⟩
      intro x hx htx
      rcases List.mem_append.mp hx with hx1 | hx1
      · exact h3 x hx1 htx
      · rw [List.mem_singleton.mp hx1] at htx
        exact absurd htx ht

theorem analyzeGo_props (fs : List FileInfo) : ∀ st : FoldSt, FoldInv st →
    ∃ st2, analyzeGo st fs = Except.ok st2 ∧ FoldInv st2 ∧
      st2.analyzed.length = st.analyzed.length + fs.length := by
  induction fs with
  | nil =>
    intro st hst
    exact ⟨st, rfl, hst, by simp⟩
  | cons f fs ih =>
    intro st hst
    obtain ⟨st2, hs, hinv2, hlen2⟩ := stepFile_inv st f hst
    obtain ⟨st3, hg, hinv3, hlen3⟩ := ih st2 hinv2
    refine ⟨st3, by simp [analyzeGo, hs, hg], hinv3, ?_⟩
    rw [hlen3, hlen2]
    simp [Nat.add_assoc, Nat.add_comm 1 fs.length]

end Profile

namespace Profile

/-- C4 (amended): for every scan, `avg_duration` is the sum of the durations
of exactly those records whose duration is *truthy* — present **and
nonzero** (Python: `if analysis['duration']:`) — divided by their count, or
`0` when there is no such record; `fastest`/`slowest` are null exactly when
no record has a truthy duration, and otherwise are records attaining the
minimal/maximal truthy duration.  (The original claim — a known duration of
zero counts like any other — is false: a parsed `0.0` is falsy and is
skipped exactly like an absent duration; see the counterexample.) -/
theorem claim4_duration_stats (files : List FileInfo) :
    ∃ res, analyzeProfilesE files = Except.ok res ∧
      res.stats.avg_duration =
        (if truthyDurations res.analyzed_profiles = [] then 0
         else (truthyDurations res.analyzed_profiles).sum /
              ((truthyDurations res.analyzed_profiles).length : ℚ)) ∧
      (res.stats.fastest = none ↔ truthyDurations res.analyzed_profiles = []) ∧
      (res.stats.slowest = none ↔ truthyDurations res.analyzed_profiles = []) ∧
      (∀ fr, res.stats.fastest = some fr → truthyDur fr.duration = true ∧
        fr ∈ res.analyzed_profiles ∧
        ∀ r ∈ res.analyzed_profiles, truthyDur r.duration = true →
          durVal fr ≤ durVal r) ∧
      (∀ sr, res.stats.slowest = some sr → truthyDur sr.duration = true ∧
        sr ∈ res.analyzed_profiles ∧
        ∀ r ∈ res.analyzed_profiles, truthyDur r.duration = true →
          durVal r ≤ durVal sr) := by
  obtain ⟨st, hg, hinv, -⟩ := analyzeGo_props files initFoldSt initFoldSt_inv
  obtain ⟨hdur, htot, hsize, hfn, hfmin, hsn, hsmax⟩ := hinv
  refine ⟨{ analyzed_profiles := st.analyzed, app_groups := st.groups,
            stats := { total_files := files.length, total_size := st.total_size,
                       avg_duration := if st.durations.isEmpty then 0
                         else st.total_duration / (st.durations.length : ℚ),
                       fastest := st.fastest, slowest := st.slowest,
                       apps := st.apps } },
          by simp [analyzeProfilesE, hg], ?_, hfn, hsn, hfmin, hsmax⟩
  show (if st.durations.isEmpty then 0
        else st.total_duration / (st.durations.length : ℚ)) = _
  rw [hdur, htot]
  by_cases he : truthyDurations st.analyzed = []
  · simp [he]
  · rw [if_neg (by simp [List.isEmpty_iff, he]), if_neg he]

/-- C4 counterexample: scanning `demoFileZero` (duration `0.0`, a *known*
sub-millisecond duration per the spec) together with `demoFileTwo`
(duration `2.0`): the code computes `avg_duration = 2` — the zero duration
is skipped by truthiness — while the claim's average over known durations is
`(0 + 2) / 2 = 1`. -/
theorem claim4_counterexample :
    ((analyzeProfilesE [demoFileZero, demoFileTwo]).toOption.map
        (fun res => res.stats.avg_duration) = some 2) ∧
    ((analyzeProfilesE [demoFileZero, demoFileTwo]).toOption.map
        (fun res => specAvgKnownDurations res.analyzed_profiles) = some 1) ∧
    (2 : ℚ) ≠ 1 := by
  refine ⟨by decide, by decide, by norm_num⟩

/-- C4 witness: the amended statement applied to a concrete one-file scan,
with the average evaluated. -/
theorem claim4_witness :
    (analyzeProfilesE [demoFileTwo]).toOption.map
      (fun res => res.stats.avg_duration) = some 2 := by
  obtain ⟨res, h1, h2, -, -, -, -⟩ := claim4_duration_stats [demoFileTwo]
  rw [h1]
  have hc : (analyzeProfilesE [demoFileTwo]).toOption.map
      (fun r => truthyDurations r.analyzed_profiles) = some [2] := by decide
  rw [h1] at hc
  simp only [Except.toOption, Option.map_some', Option.some.injEq] at hc ⊢
  rw [h2, hc]
  norm_num

end Profile

namespace Profile

/-- C5: for every scan of a directory listing, `total_files` equals the
number of records produced and `total_size` equals the sum of their
`size` fields; a directory with zero trace files yields the empty
aggregates (zero counts, empty grouping, null fastest/slowest) rather
than an error. -/
theorem claim5_aggregate_consistency (listing : List FileInfo) :
    ∃ res, scanDirectory listing = Except.ok res ∧
      res.stats.total_files = res.analyzed_profiles.length ∧
      res.stats.total_size = (res.analyzed_profiles.map TraceRecord.size).sum ∧
      (listing.filter (fun f => isTraceFile f.name) = [] →
        res = ⟨[], [], ⟨0, 0, 0, none, none, []⟩⟩) := by
  obtain ⟨st, hg, hinv, hlen⟩ :=
    analyzeGo_props (listing.filter (fun f => isTraceFile f.name))
      initFoldSt initFoldSt_inv
  obtain ⟨-, -, hsize, -, -, -, -⟩ := hinv
  refine ⟨{ analyzed_profiles := st.analyzed, app_groups := st.groups,
            stats := { total_files :=
                         (listing.filter (fun f => isTraceFile f.name)).length,
                       total_size := st.total_size,
                       avg_duration := if st.durations.isEmpty then 0
                         else st.total_duration / (st.durations.length : ℚ),
                       fastest := st.fastest, slowest := st.slowest,
                       apps := st.apps } },
          by simp [scanDirectory, analyzeProfilesE, hg], ?_, hsize, ?_⟩
  · show (listing.filter (fun f => isTraceFile f.name)).length = st.analyzed.length
    rw [hlen]
    simp [initFoldSt]
  · intro hempty
    rw [hempty] at hg
    have hst : st = initFoldSt := by
      have : Except.ok (ε := Unit) initFoldSt = Except.ok st := hg
      rw [Except.ok.injEq] at this
      exact this.symm
    subst hst
    simp [initFoldSt, hempty]

/-- C5 witness: scanning a directory whose only entry is not a trace file
yields the empty aggregates. -/
theorem claim5_witness :
    scanDirectory [demoFileNonTrace] =
      Except.ok (⟨[], [], ⟨0, 0, 0, none, none, []⟩⟩ : AnalyzerResult) := by
  obtain ⟨res, h1, -, -, h4⟩ := claim5_aggregate_consistency [demoFileNonTrace]
  have hf : [demoFileNonTrace].filter (fun f => isTraceFile f.name) = [] := by decide
  rw [h4 hf] at h1
  exact h1

theorem expandTasks_length (endpoints : List EndpointConfig) (r : ℕ) :
    (expandTasks endpoints r).length = endpoints.length * r := by
  induction endpoints with
  | nil => simp [expandTasks]
  | cons e es ih =>
    unfold expandTasks at ih ⊢
    rw [List.flatMap_cons, List.length_append, List.length_replicate, ih,
        List.length_cons, Nat.succ_mul]
    omega

theorem runEndpointTests_length (endpoints : List EndpointConfig) (r : ℕ)
    (net : ℕ → TransportResult) (times : ℕ → ℚ) :
    (runEndpointTests endpoints r net times).length = endpoints.length * r := by
  unfold runEndpointTests
  rw [List.length_map, List.enum_length]
  exact expandTasks_length endpoints r

/-- C6: dispatch returns exactly `len(endpoints) * repeats` outcomes, one
per expanded task, and every task whose transport interaction raised is
converted into a failed outcome (success false, status 0, non-null error)
in that list rather than propagated — so no individual request failure
aborts the campaign or makes the dispatch raise. -/
theorem claim6_dispatch_completeness (endpoints : List EndpointConfig)
    (c r : ℕ) (net : ℕ → TransportResult) (times : ℕ → ℚ) (hc : 1 ≤ c) :
    (runEndpointTests endpoints r net times).length = endpoints.length * r ∧
    (∀ i : ℕ, ∀ h : i < (runEndpointTests endpoints r net times).length,
      ∀ msg, net i = TransportResult.exc msg →
      ((runEndpointTests endpoints r net times).get ⟨i, h⟩).success = false ∧
      ((runEndpointTests endpoints r net times).get ⟨i, h⟩).status = 0 ∧
      ((runEndpointTests endpoints r net times).get ⟨i, h⟩).error = some msg) := by
  refine ⟨runEndpointTests_length endpoints r net times, ?_⟩
  intro i h msg hmsg
  have hget : (runEndpointTests endpoints r net times).get ⟨i, h⟩ =
      makeRequest ((expandTasks endpoints r).get
        ⟨i, by
          have h2 := h
          rw [runEndpointTests_length] at h2
          rw [expandTasks_length]
          exact h2⟩) (net i) (times i) := by
    unfold runEndpointTests
    rw [List.get_eq_getElem, List.get_eq_getElem, List.getElem_map,
        List.getElem_enum]
  rw [hget, hmsg]
  exact ⟨rfl, rfl, rfl⟩

/-- C6 witness: 2 endpoints, 3 repeats, concurrency 2, with task 0 failing
at transport level: 6 outcomes, and outcome 0 is a converted failure. -/
theorem claim6_witness :
    (runEndpointTests
        [⟨("/a" : String).data, ("GET" : String).data, false, false⟩,
         ⟨("/b" : String).data, ("GET" : String).data, true, false⟩] 3
        (fun i => if i = 0 then TransportResult.exc ("timeout" : String).data
                  else TransportResult.response 200 ("ok" : String).data)
        (fun _ => 1)).length = 6 ∧
    ((runEndpointTests
        [⟨("/a" : String).data, ("GET" : String).data, false, false⟩,
         ⟨("/b" : String).data, ("GET" : String).data, true, false⟩] 3
        (fun i => if i = 0 then TransportResult.exc ("timeout" : String).data
                  else TransportResult.response 200 ("ok" : String).data)
        (fun _ => 1)).get ⟨0, by decide⟩).success = false := by
  have h := claim6_dispatch_completeness
    [⟨("/a" : String).data, ("GET" : String).data, false, false⟩,
     ⟨("/b" : String).data, ("GET" : String).data, true, false⟩] 2 3
    (fun i => if i = 0 then TransportResult.exc ("timeout" : String).data
              else TransportResult.response 200 ("ok" : String).data)
    (fun _ => 1) (by decide)
  exact ⟨h.1, (h.2 0 (by decide) (("timeout" : String).data) (by decide)).1⟩

/-- C7: the sweep selects exactly the trace files strictly older than
`now - max_age_days`; with `dry_run = true` it reports those candidates
without changing the directory listing, and the candidate set equals what a
sweep with `dry_run = false` at the same instant deletes; with
`dry_run = false` exactly the selected files are deleted and every
unselected (younger or non-trace) file remains. -/
theorem claim7_sweep (listing : List FileInfo) (now : ℚ) (days : ℕ) :
    (handleClean listing now days true).2 = listing ∧
    (handleClean listing now days true).1 = (handleClean listing now days false).1 ∧
    (∀ f, f ∈ (handleClean listing now days true).1 ↔
      f ∈ listing ∧ sweepSelects now days f = true) ∧
    (handleClean listing now days false).2 =
      listing.filter (fun f => !(sweepSelects now days f)) ∧
    (∀ f ∈ listing, sweepSelects now days f = false →
      f ∈ (handleClean listing now days false).2) := by
  refine ⟨rfl, rfl, ?_, rfl, ?_⟩
  · intro f
    exact List.mem_filter
  · intro f hf hsel
    show f ∈ listing.filter (fun f => !(sweepSelects now days f))
    exact List.mem_filter.mpr ⟨hf, by simp [hsel]⟩

/-- C7 witness (E2E scenario D): with `days = 7` against a directory with
one file aged 10 days and one aged 1 day: dry-run leaves the listing
unchanged and reports exactly the old file; the real sweep deletes exactly
it, leaving only the 1-day file. -/
theorem claim7_witness :
    (handleClean [demoFileOld, demoFileYoung] 1000000 7 true).2 =
      [demoFileOld, demoFileYoung] ∧
    handleClean [demoFileOld, demoFileYoung] 1000000 7 false =
      ([demoFileOld], [demoFileYoung]) := by
  exact ⟨(claim7_sweep [demoFileOld, demoFileYoung] 1000000 7).1, by decide⟩

end Profile

namespace Profile

/-- C8 (E2E scenario A): scanning a directory containing exactly the file
`"0.123s _ api/v1/users ?profile=1 _ 1700000000.html"` of size 2048 yields
exactly one record with `duration = 0.123`, `timestamp = 1700000000`,
`size = 2048`, `app = "users"` (the generic versioned-API rule takes the
segment after `api/v1` once the more specific category checks fail), and an
endpoint containing `"api/v1/users"`. -/
theorem claim8_canonical_scan :
    ((scanDirectory [demoFileCanonical]).toOption.map (fun res =>
       res.analyzed_profiles.map (fun r =>
         (r.duration, r.timestamp, r.size, r.app)))) =
      some [(some (mkRat 123 1000), 1700000000, 2048, ("users" : String).data)] ∧
    ((scanDirectory [demoFileCanonical]).toOption.map (fun res =>
       res.analyzed_profiles.map (fun r =>
         isSubstr ("api/v1/users" : String).data r.endpoint))) = some [true] := by
  exact ⟨by decide, by decide⟩

/-- C9: under the semaphore discipline of `run_endpoint_tests`
(`asyncio.Semaphore(concurrent)` gating every eagerly-scheduled task), every
reachable state of a campaign with concurrency `c` has at most `c` requests
in flight, regardless of completion order. -/
theorem claim9_concurrency_bound (c n : ℕ) (s : DispatchState)
    (h : DispatchReachable c n s) : s.inFlight ≤ c := by
  induction h with
  | refl => simp [dispatchInit]
  | tail hst step ih =>
    cases step with
    | acquire hw hlt =>
      dsimp only at ih ⊢
      omega
    | release hp =>
      dsimp only at ih ⊢
      omega

/-- C9 witness: with concurrency 2 and 3 tasks, the state reached after two
acquisitions has 2 requests in flight, within the bound. -/
theorem claim9_witness : (⟨1, 2, 0⟩ : DispatchState).inFlight ≤ 2 := by
  apply claim9_concurrency_bound 2 3
  have s1 : DispatchStep 2 (dispatchInit 3) ⟨2, 1, 0⟩ :=
    DispatchStep.acquire (dispatchInit 3) (by decide) (by decide)
  have s2 : DispatchStep 2 ⟨2, 1, 0⟩ ⟨1, 2, 0⟩ :=
    DispatchStep.acquire ⟨2, 1, 0⟩ (by decide) (by decide)
  exact Relation.ReflTransGen.tail (Relation.ReflTransGen.single s1) s2

/-- C10 (implicit): the authenticator stores a bearer token only when the
login response status is exactly 200 and its JSON body maps `"access"` to a
non-null value; any other status (including other 2xx such as 201) and any
transport or JSON-decoding error leave the token unset; `authenticate` is a
total function of the exchange, so the campaign always proceeds. -/
theorem claim10_authenticate (resp : Except (List Char) AuthHttpResponse) :
    (∀ tok, authenticate resp = some tok →
      ∃ r d, resp = Except.ok r ∧ r.status = 200 ∧ r.jsonBody = Except.ok d ∧
        d.lookup (("access" : String).data) = some (some tok)) ∧
    (∀ r, resp = Except.ok r → r.status ≠ 200 → authenticate resp = none) ∧
    (∀ e, resp = Except.error e → authenticate resp = none) := by
  refine ⟨?_, ?_, ?_⟩
  · intro tok htok
    cases resp with
    | error e => simp [authenticate] at htok
    | ok r =>
      by_cases hs : r.status = 200
      · cases hj : r.jsonBody with
        | error u => simp [authenticate, hs, hj] at htok
        | ok d =>
          cases hl : d.lookup (("access" : String).data) with
          | none => simp [authenticate, hs, hj, hl] at htok
          | some v =>
            simp only [authenticate, hs, hj, hl, if_pos] at htok
            exact ⟨r, d, rfl, hs, hj, by rw [hl, htok]⟩
      · simp [authenticate, hs] at htok
  · intro r hr hs
    subst hr
    simp [authenticate, hs]
  · intro e he
    subst he
    rfl

/-- C10 witness: a 201 login response, even with an `"access"` key in its
body, leaves the token unset. -/
theorem claim10_witness :
    authenticate (Except.ok ⟨201, Except.ok
      [(("access" : String).data, some ("tok123" : String).data)]⟩) = none :=
  (claim10_authenticate _).2.1 _ rfl (by decide)

end Profile
